import Mathlib

/-!
# Verification of `neural-model/utils/evaluation.py` (class `Evaluator`)

Shallow embedding of the `Evaluator` class.  Python floats are modelled by
exact rationals (`ℚ`), Python `int` by `ℕ`, raised exceptions by
`Except Err`.  `editdistance.eval` (a C implementation of the Levenshtein
distance) is embedded as Mathlib's `levenshtein` with the unit cost
structure.  `np.exp` is strictly monotone and injective; since its values
are irrational, `evaluate_ppl` here returns the *argument* passed to
`np.exp` (the rational `-cum_log_probs / cum_num_examples`), and theorems
about the returned perplexity are phrased through `Real.exp` of that value.
-/

namespace Evaluation

-- `Rat.mul` and friends are `@[irreducible]` in Batteries, which blocks
-- `decide` from evaluating concrete rational arithmetic; restore the
-- default reducibility for this development.
attribute [local semireducible] Rat.mul Rat.inv Rat.add Rat.sub

/-- Decidable equality for `Except`, needed to evaluate the embedded
operations on concrete inputs. -/
instance {ε : Type u} {α : Type v} [DecidableEq ε] [DecidableEq α] :
    DecidableEq (Except ε α)
  | Except.error e, Except.error f =>
    if h : e = f then Decidable.isTrue (by rw [h])
    else Decidable.isFalse (by simp [h])
  | Except.error _, Except.ok _ => Decidable.isFalse (by simp)
  | Except.ok _, Except.error _ => Decidable.isFalse (by simp)
  | Except.ok x, Except.ok y =>
    if h : x = y then Decidable.isTrue (by rw [h])
    else Decidable.isFalse (by simp [h])

/-- Python runtime exceptions that the code under scrutiny can raise,
plus `noEligibleExamples`, an error kind named by the specification
(the code never raises it; it is present so that statements about the
spec's "no eligible examples" condition can be written down). -/
inductive Err where
  | keyError : String → Err
  | divByZero : Err
  | indexError : Err
  | iterError : Err
  | modelError : Err
  | noEligibleExamples : Err
deriving DecidableEq

/-- The dictionary returned by `Evaluator.get_soft_metrics`
(keys `edit_distance`, `ref_len`, `cer`, `accuracy`). -/
structure SoftMetric where
  edit_distance : ℚ
  ref_len : ℕ
  cer : ℚ
  accuracy : ℚ
deriving DecidableEq

/-- Embedding of `editdistance.eval(a, b)`: the Levenshtein distance
between the two strings as character sequences (unit costs). -/
def editdistance_eval (a b : String) : ℕ :=
  levenshtein Levenshtein.defaultCost a.toList b.toList

/-- Embedding of `Evaluator.get_soft_metrics` (evaluation.py lines 12-20).
Python computes `edit_distance` first and then
`cer = edit_distance / len(gold_name)`, which raises `ZeroDivisionError`
when `gold_name` is empty. -/
def get_soft_metrics (pred_name gold_name : String) : Except Err SoftMetric :=
  let edit_distance : ℚ := (editdistance_eval pred_name gold_name : ℕ)
  if gold_name.length = 0 then
    Except.error Err.divByZero
  else
    Except.ok
      { edit_distance := edit_distance
        ref_len := gold_name.length
        cer := edit_distance / (gold_name.length : ℚ)
        accuracy := if pred_name = gold_name then 1 else 0 }

/-- The dictionary returned by `Evaluator.average`: the key `corpus_cer`
plus the arithmetic mean of each key of the input records. -/
structure AggReport where
  corpus_cer : ℚ
  edit_distance : ℚ
  ref_len : ℚ
  cer : ℚ
  accuracy : ℚ
deriving DecidableEq

/-- Embedding of `Evaluator.average` (evaluation.py lines 22-37).  On an empty input
list `agg_results` is the empty dict, so `agg_results["edit_distance"]`
on line 30 raises `KeyError`.  On a non-empty list whose `ref_len` values
sum to `0`, the division on lines 30-32 raises `ZeroDivisionError`.
Otherwise `corpus_cer = sum(edit_distance)/sum(ref_len)` and every other
key is averaged by `np.average` (the arithmetic mean). -/
def average (metrics_list : List SoftMetric) : Except Err AggReport :=
  match metrics_list with
  | [] => Except.error (Err.keyError "edit_distance")
  | _ =>
    let n : ℚ := metrics_list.length
    let sum_ed : ℚ := (metrics_list.map (fun m => m.edit_distance)).sum
    let sum_ref : ℕ := (metrics_list.map (fun m => m.ref_len)).sum
    if sum_ref = 0 then Except.error Err.divByZero
    else
      Except.ok
        { corpus_cer := sum_ed / (sum_ref : ℚ)
          edit_distance := sum_ed / n
          ref_len := (metrics_list.map (fun m => (m.ref_len : ℚ))).sum / n
          cer := (metrics_list.map (fun m => m.cer)).sum / n
          accuracy := (metrics_list.map (fun m => m.accuracy)).sum / n }

/-- The `config["train"]` sub-dictionary: `batch_size`, the optional key
`eval_batch_size`, `num_readers` and `num_batchers`. -/
structure TrainConfig where
  batch_size : ℕ
  eval_batch_size : Option ℕ
  num_readers : ℕ
  num_batchers : ℕ
deriving DecidableEq

/-- The nested `config` dictionary; only `config["train"]` is read. -/
structure Config where
  train : TrainConfig
deriving DecidableEq

/-- The batch-size resolution block duplicated at evaluation.py lines
89-93 (in `decode`) and lines 140-144 (in `decode_and_evaluate`):
the explicit `eval_batch_size` argument if not `None`, else
`config["train"]["eval_batch_size"]` if that key is present, else
`config["train"]["batch_size"]`. -/
def effective_eval_batch_size (eval_batch_size : Option ℕ) (config : Config) : ℕ :=
  match eval_batch_size with
  | some n => n
  | none =>
    match config.train.eval_batch_size with
    | some n => n
    | none => config.train.batch_size

/-- The `test_meta` metadata of one example. -/
structure TestMeta where
  function_name_in_train : Bool
  function_body_in_train : Bool
deriving DecidableEq

/-- One batch as consumed by `evaluate_ppl`: for each example, the
model's gold log-probability (`result["batch_log_prob"][i]`) paired with
its `test_meta` entry.  The model aligns the two lists by index, so they
are embedded already zipped. -/
structure PplBatch where
  entries : List (ℚ × TestMeta)
deriving DecidableEq

/-- The `for batch in data_iter` loop of `evaluate_ppl` (lines 66-76).
A stream element `Except.error e` stands for the batch iterator or the
model call raising at that point; the exception propagates and aborts
the pass.  The accumulator is `(cum_log_probs, cum_num_examples)`;
examples whose `test_meta` fails `predicate` are skipped. -/
def ppl_loop (predicate : TestMeta → Bool) :
    List (Except Err PplBatch) → ℚ → ℕ → Except Err (ℚ × ℕ)
  | [], cum, n => Except.ok (cum, n)
  | Except.error e :: _, _, _ => Except.error e
  | Except.ok b :: rest, cum, n =>
    let step := b.entries.foldl
      (fun (p : ℚ × ℕ) (x : ℚ × TestMeta) =>
        if predicate x.2 then (p.1 + x.1, p.2 + 1) else p) (cum, n)
    ppl_loop predicate rest step.1 step.2

/-- Embedding of `Evaluator.evaluate_ppl` (lines 43-83).  `training` is the model's
`training` flag on entry (`was_training`); the first component of the
result is the flag when the call finishes (`model.eval()` clears it,
and `if was_training: model.train()` on lines 80-81 runs only after a
fully successful pass and division — there is no `try`/`finally`).
`dataset` is `dataset.batch_iterator` as a function of the batch size.
The returned rational is the argument `-cum_log_probs / cum_num_examples`
that the Python passes to `np.exp`; with `cum_num_examples == 0` the
division on line 78 raises `ZeroDivisionError` before the mode restore. -/
def evaluate_ppl (training : Bool) (dataset : ℕ → List (Except Err PplBatch))
    (config : Config) (predicate : TestMeta → Bool) : Bool × Except Err ℚ :=
  let data_iter := dataset config.train.batch_size
  match ppl_loop predicate data_iter 0 0 with
  | Except.error e => (false, Except.error e)
  | Except.ok (cum_log_probs, cum_num_examples) =>
    if cum_num_examples = 0 then (false, Except.error Err.divByZero)
    else (training, Except.ok (-(cum_log_probs / (cum_num_examples : ℚ))))

/-- One example as consumed by the decode loops: `variable_name_map`
as an ordered association list from original name to gold new name,
the identifiers used to build the result key, and `test_meta`. -/
structure Example where
  variable_name_map : List (String × String)
  file_name : String
  line_num : ℕ
  compilation_unit : String
  test_meta : TestMeta
deriving DecidableEq

/-- One `rename_result` from `model.predict`: a ranked list of candidate
rename maps, each an association list from original name to the
predicted `new_name` (the Python stores `{old: {"new_name": ...}}`;
the inner one-key dictionary is flattened here). -/
def RenameResult : Type := List (List (String × String))

instance : DecidableEq RenameResult := by
  unfold RenameResult
  infer_instance

/-- Python dictionary lookup `d[k]` on an association list:
`none` models a raised `KeyError`. -/
def assocFind (k : String) : List (String × String) → Option String
  | [] => none
  | (k', v) :: rest => if k' = k then some v else assocFind k rest

/-- Python dictionary assignment `d[k] = v`: overwrite in place if the
key exists, otherwise append. -/
def dictInsert {α : Type} : List (String × α) → String → α → List (String × α)
  | [], k, v => [(k, v)]
  | (k', v') :: rest, k, v =>
    if k' = k then (k, v) :: rest else (k', v') :: dictInsert rest k v

/-- One batch as consumed by `decode` / `decode_and_evaluate`: the
examples of the batch paired with the `model.predict` output for each
(the Python zips `batch.examples` with `rename_results`). -/
structure DecodeBatch where
  examples : List (Example × RenameResult)
deriving DecidableEq

/-- The inner `for old_name, gold_new_name in ex.variable_name_map`
loop of `decode` (lines 115-121): look up the top candidate's prediction
(`KeyError` if absent), score it with `get_soft_metrics`, and append the
metric to `example_pred_accs`. -/
def score_vars (top_rename_result : List (String × String)) :
    List (String × String) → List SoftMetric → Except Err (List SoftMetric)
  | [], example_pred_accs => Except.ok example_pred_accs
  | (old_name, gold_new_name) :: rest, example_pred_accs =>
    match assocFind old_name top_rename_result with
    | none => Except.error (Err.keyError old_name)
    | some pred_new_name =>
      match get_soft_metrics pred_new_name gold_new_name with
      | Except.error e => Except.error e
      | Except.ok var_metric =>
        score_vars top_rename_result rest (example_pred_accs ++ [var_metric])

/-- The `for example, rename_result in zip(...)` loop of `decode`
(lines 112-128): `rename_result[0]` (`IndexError` on an empty list),
per-variable scoring, then
`all_examples[f"{file_name}_{line_num}_{fun_name}"] =
(rename_result, Evaluator.average(example_pred_accs))`. -/
def decode_examples :
    List (Example × RenameResult) → List (String × (RenameResult × AggReport)) →
    Except Err (List (String × (RenameResult × AggReport)))
  | [], all_examples => Except.ok all_examples
  | (ex, rename_result) :: rest, all_examples =>
    match rename_result with
    | [] => Except.error Err.indexError
    | top_rename_result :: _ =>
      match score_vars top_rename_result ex.variable_name_map [] with
      | Except.error e => Except.error e
      | Except.ok example_pred_accs =>
        match average example_pred_accs with
        | Except.error e => Except.error e
        | Except.ok avg =>
          decode_examples rest
            (dictInsert all_examples
              (ex.file_name ++ "_" ++ toString ex.line_num ++ "_" ++
                ex.compilation_unit)
              (rename_result, avg))

/-- The `for batch in data_iter` loop of `decode` (lines 109-128).
A stream element `Except.error e` stands for the batch iterator or
`model.predict` raising at that point. -/
def decode_loop :
    List (Except Err DecodeBatch) → List (String × (RenameResult × AggReport)) →
    Except Err (List (String × (RenameResult × AggReport)))
  | [], all_examples => Except.ok all_examples
  | Except.error e :: _, _ => Except.error e
  | Except.ok b :: rest, all_examples =>
    match decode_examples b.examples all_examples with
    | Except.error e => Except.error e
    | Except.ok all_examples => decode_loop rest all_examples

/-- Embedding of `Evaluator.decode` (lines 85-130).  The first component of the
result is the model's `training` flag when the call finishes: `decode`
calls `model.eval()` on line 105 and — unlike the other two operations —
never records `was_training` nor calls `model.train()` again, so the
flag is `false` on every exit path, normal or raising. -/
def decode (training : Bool) (dataset : ℕ → List (Except Err DecodeBatch))
    (config : Config) (eval_batch_size : Option ℕ) :
    Bool × Except Err (List (String × (RenameResult × AggReport))) :=
  let data_iter := dataset (effective_eval_batch_size eval_batch_size config)
  (false, decode_loop data_iter [])

/-- The mutable accumulators of `decode_and_evaluate`
(lines 160-169). -/
structure DAcc where
  example_acc_list : List (List SoftMetric)
  variable_acc_list : List SoftMetric
  need_rename_cases : List SoftMetric
  func_name_in_train_acc : List SoftMetric
  func_name_not_in_train_acc : List SoftMetric
  func_body_in_train_acc : List SoftMetric
  func_body_not_in_train_acc : List SoftMetric
  all_examples : List (String × (RenameResult × AggReport))
deriving DecidableEq

/-- The accumulators' initial state (all empty). -/
def emptyDAcc : DAcc := ⟨[], [], [], [], [], [], [], []⟩

/-- The inner variable loop of `decode_and_evaluate` (lines 179-199):
score each variable, and when `gold_new_name != old_name` append the
metric to `need_rename_cases` and to exactly one of the two
function-name buckets and one of the two function-body buckets,
according to `ex.test_meta`. -/
def dvar_loop (meta : TestMeta) (top_rename_result : List (String × String)) :
    List (String × String) → List SoftMetric → DAcc →
    Except Err (List SoftMetric × DAcc)
  | [], example_pred_accs, st => Except.ok (example_pred_accs, st)
  | (old_name, gold_new_name) :: rest, example_pred_accs, st =>
    match assocFind old_name top_rename_result with
    | none => Except.error (Err.keyError old_name)
    | some pred_new_name =>
      match get_soft_metrics pred_new_name gold_new_name with
      | Except.error e => Except.error e
      | Except.ok var_metric =>
        let st' :=
          if gold_new_name ≠ old_name then
            { st with
              need_rename_cases := st.need_rename_cases ++ [var_metric]
              func_name_in_train_acc :=
                if meta.function_name_in_train then
                  st.func_name_in_train_acc ++ [var_metric]
                else st.func_name_in_train_acc
              func_name_not_in_train_acc :=
                if meta.function_name_in_train then st.func_name_not_in_train_acc
                else st.func_name_not_in_train_acc ++ [var_metric]
              func_body_in_train_acc :=
                if meta.function_body_in_train then
                  st.func_body_in_train_acc ++ [var_metric]
                else st.func_body_in_train_acc
              func_body_not_in_train_acc :=
                if meta.function_body_in_train then st.func_body_not_in_train_acc
                else st.func_body_not_in_train_acc ++ [var_metric] }
          else st
        dvar_loop meta top_rename_result rest (example_pred_accs ++ [var_metric]) st'

/-- The per-example body of `decode_and_evaluate`'s batch loop
(lines 175-213): variable loop, then `variable_acc_list.extend` and
`example_acc_list.append`, then (only under `return_results`) the
per-example `average` and the `all_examples` insertion keyed by
`f"{file_name}_{line_num}"`. -/
def dexamples_loop (return_results : Bool) :
    List (Example × RenameResult) → DAcc → Except Err DAcc
  | [], st => Except.ok st
  | (ex, rename_result) :: rest, st =>
    match rename_result with
    | [] => Except.error Err.indexError
    | top_rename_result :: _ =>
      match dvar_loop ex.test_meta top_rename_result
          ex.variable_name_map [] st with
      | Except.error e => Except.error e
      | Except.ok (example_pred_accs, st') =>
        let st'' := { st' with
          variable_acc_list := st'.variable_acc_list ++ example_pred_accs
          example_acc_list := st'.example_acc_list ++ [example_pred_accs] }
        if return_results then
          match average example_pred_accs with
          | Except.error e => Except.error e
          | Except.ok avg =>
            dexamples_loop return_results rest
              { st'' with
                all_examples :=
                  dictInsert st''.all_examples
                    (ex.file_name ++ "_" ++ toString ex.line_num)
                    (rename_result, avg) }
        else dexamples_loop return_results rest st''

/-- The `for batch in data_iter` loop of `decode_and_evaluate`
(lines 172-213).  A stream element `Except.error e` stands for the batch
iterator or `model.predict` raising at that point. -/
def dbatch_loop (return_results : Bool) :
    List (Except Err DecodeBatch) → DAcc → Except Err DAcc
  | [], st => Except.ok st
  | Except.error e :: _, _ => Except.error e
  | Except.ok b :: rest, st =>
    match dexamples_loop return_results b.examples st with
    | Except.error e => Except.error e
    | Except.ok st' => dbatch_loop return_results rest st'

/-- The `eval_results` dictionary built on lines 227-236. -/
structure EvalResults where
  corpus_acc : AggReport
  corpus_need_rename_acc : AggReport
  func_name_in_train_acc : AggReport
  func_name_not_in_train_acc : AggReport
  func_body_in_train_acc : AggReport
  func_body_not_in_train_acc : AggReport
  num_variables : ℕ
  num_valid_examples : ℕ
deriving DecidableEq

/-- The reduction tail of `decode_and_evaluate` (lines 215-240), with
the position of the mode restore embedded exactly: `corpus_acc` is
computed on line 217 *before* `if was_training: model.train()` on lines
219-220, so an exception there leaves the flag `false`, while the five
stratified `average` calls on lines 222-226 run *after* the restore, so
an exception there leaves the flag equal to `training`.  The optional
second result component models the `return_results` variant of the
return value (lines 238-240). -/
def dreduce (training return_results : Bool) (st : DAcc) :
    Bool × Except Err (EvalResults × Option (List (String × (RenameResult × AggReport)))) :=
  let valid_example_num := st.example_acc_list.length
  let num_variables := st.variable_acc_list.length
  match average st.variable_acc_list with
  | Except.error e => (false, Except.error e)
  | Except.ok corpus_acc =>
    match average st.need_rename_cases with
    | Except.error e => (training, Except.error e)
    | Except.ok need_rename_acc =>
      match average st.func_name_in_train_acc with
      | Except.error e => (training, Except.error e)
      | Except.ok name_in_train_acc =>
        match average st.func_name_not_in_train_acc with
        | Except.error e => (training, Except.error e)
        | Except.ok name_not_in_train_acc =>
          match average st.func_body_in_train_acc with
          | Except.error e => (training, Except.error e)
          | Except.ok body_in_train_acc =>
            match average st.func_body_not_in_train_acc with
            | Except.error e => (training, Except.error e)
            | Except.ok body_not_in_train_acc =>
              (training, Except.ok
                (⟨corpus_acc, need_rename_acc, name_in_train_acc,
                  name_not_in_train_acc, body_in_train_acc,
                  body_not_in_train_acc, num_variables, valid_example_num⟩,
                 if return_results then some st.all_examples else none))

/-- Embedding of `Evaluator.decode_and_evaluate` (lines 132-240).  The first
component of the result is the model's `training` flag when the call
finishes; as in `evaluate_ppl` there is no `try`/`finally`, so an
exception raised during the batch loop leaves the flag `false`. -/
def decode_and_evaluate (training : Bool)
    (dataset : ℕ → List (Except Err DecodeBatch)) (config : Config)
    (return_results : Bool) (eval_batch_size : Option ℕ) :
    Bool × Except Err (EvalResults × Option (List (String × (RenameResult × AggReport)))) :=
  let data_iter := dataset (effective_eval_batch_size eval_batch_size config)
  match dbatch_loop return_results data_iter emptyDAcc with
  | Except.error e => (false, Except.error e)
  | Except.ok st => dreduce training return_results st

lemma string_length_eq_zero_iff (s : String) : s.length = 0 ↔ s = "" := by
  rw [← String.length_data, List.length_eq_zero, String.ext_iff]

lemma levenshtein_defaultCost_self (l : List Char) :
    levenshtein Levenshtein.defaultCost l l = 0 := by
  induction l with
  | nil => simp
  | cons x xs ih => simp [ih]

/-- C4 (confirmed).  For every pair of strings with a non-empty gold
name, `get_soft_metrics` returns the record whose `edit_distance` is the
Levenshtein distance between the two strings, whose `ref_len` is the
length of the gold name, whose `cer` is exactly `edit_distance/ref_len`
and whose `accuracy` is `1` iff the strings are identical; in particular
`get_soft_metrics("file_name","filename")` yields `edit_distance = 1`,
`ref_len = 8`, `cer = 0.125`, `accuracy = 0`. -/
theorem C4_get_soft_metrics_spec :
    (∀ pred_name gold_name : String, gold_name ≠ "" →
      get_soft_metrics pred_name gold_name = Except.ok
        { edit_distance :=
            (levenshtein Levenshtein.defaultCost pred_name.toList gold_name.toList : ℕ)
          ref_len := gold_name.length
          cer :=
            ((levenshtein Levenshtein.defaultCost pred_name.toList gold_name.toList : ℕ) : ℚ) /
              (gold_name.length : ℚ)
          accuracy := if pred_name = gold_name then 1 else 0 })
    ∧ get_soft_metrics "file_name" "filename" = Except.ok ⟨1, 8, 1/8, 0⟩ := by
  constructor
  · intro pred_name gold_name h
    have hg : ¬ gold_name.length = 0 := by
      simpa [string_length_eq_zero_iff] using h
    simp [get_soft_metrics, editdistance_eval, hg]
  · decide

/-- Witness for C4 at the concrete input `("file_name", "filename")`. -/
theorem C4_get_soft_metrics_witness :
    ("filename" : String) ≠ "" ∧
    get_soft_metrics "file_name" "filename" = Except.ok
      { edit_distance :=
          (levenshtein Levenshtein.defaultCost "file_name".toList "filename".toList : ℕ)
        ref_len := ("filename" : String).length
        cer :=
          ((levenshtein Levenshtein.defaultCost "file_name".toList "filename".toList : ℕ) : ℚ) /
            (("filename" : String).length : ℚ)
        accuracy := if ("file_name" : String) = "filename" then 1 else 0 } :=
  ⟨by decide, C4_get_soft_metrics_spec.1 "file_name" "filename" (by decide)⟩

/-- C9 counterexample.  The claim quantifies over *every* string `a`,
but at `a = ""` the Python raises `ZeroDivisionError` computing
`cer = edit_distance / len(gold_name)` (line 15), so no record with
`accuracy == 1` is returned. -/
theorem C9_counterexample :
    get_soft_metrics "" "" = Except.error Err.divByZero := by decide

/-- C9 (corrected: restricted to non-empty strings).  For every
non-empty string `a`, `get_soft_metrics(a, a)` returns a record with
`accuracy = 1` and `edit_distance = 0`. -/
theorem C9_amended_self_metrics (a : String) (h : a ≠ "") :
    get_soft_metrics a a = Except.ok ⟨0, a.length, 0, 1⟩ := by
  have hg : ¬ a.length = 0 := by
    simpa [string_length_eq_zero_iff] using h
  simp [get_soft_metrics, editdistance_eval, hg, levenshtein_defaultCost_self]

/-- Witness for the amended C9 at `a = "x"`. -/
theorem C9_amended_witness :
    ("x" : String) ≠ "" ∧
    get_soft_metrics "x" "x" = Except.ok ⟨0, ("x" : String).length, 0, 1⟩ :=
  ⟨by decide, C9_amended_self_metrics "x" (by decide)⟩

/-- C3 (confirmed).  `average` applied to the empty list raises a
runtime error (the `KeyError` from `agg_results["edit_distance"]` on
line 30) rather than returning a result record. -/
theorem C3_average_empty_raises :
    average [] = Except.error (Err.keyError "edit_distance") := rfl

/-- C8 (confirmed).  In `decode` and `decode_and_evaluate` the
effective batch size is the explicit `eval_batch_size` argument when
given; otherwise `config["train"]["eval_batch_size"]` when present;
otherwise `config["train"]["batch_size"]` — and both operations hand
exactly this resolved size to the dataset's batch iterator. -/
theorem C8_effective_batch_size :
    (∀ (config : Config) (n : ℕ), effective_eval_batch_size (some n) config = n)
    ∧ (∀ (b n r k : ℕ), effective_eval_batch_size none ⟨⟨b, some n, r, k⟩⟩ = n)
    ∧ (∀ (b r k : ℕ), effective_eval_batch_size none ⟨⟨b, none, r, k⟩⟩ = b)
    ∧ (∀ (training : Bool) (dataset : ℕ → List (Except Err DecodeBatch))
        (config : Config) (a : Option ℕ),
        decode training dataset config a =
          (false, decode_loop (dataset (effective_eval_batch_size a config)) []))
    ∧ (∀ (training : Bool) (dataset : ℕ → List (Except Err DecodeBatch))
        (config : Config) (rr : Bool) (a : Option ℕ),
        decode_and_evaluate training dataset config rr a =
          match dbatch_loop rr (dataset (effective_eval_batch_size a config)) emptyDAcc with
          | Except.error e => (false, Except.error e)
          | Except.ok st => dreduce training rr st) :=
  ⟨fun _ _ => rfl, fun _ _ _ _ => rfl, fun _ _ _ => rfl,
   fun _ _ _ _ => rfl, fun _ _ _ _ _ => rfl⟩

/-- A `SoftMetric` *record* in the sense of the data model: a dictionary
actually produced by `get_soft_metrics` for some prediction/gold pair
(the contract requires the gold name to be non-empty, so `ref_len ≥ 1`
for every such record). -/
def isSoftMetricRecord (m : SoftMetric) : Prop :=
  ∃ pred_name gold_name, get_soft_metrics pred_name gold_name = Except.ok m

lemma isSoftMetricRecord_ref_len_pos {m : SoftMetric}
    (h : isSoftMetricRecord m) : 0 < m.ref_len := by
  obtain ⟨p, g, hg⟩ := h
  by_cases hl : g.length = 0 <;> simp [get_soft_metrics, hl] at hg
  rw [← hg]
  exact Nat.pos_of_ne_zero hl

/-- C5 (confirmed).  For every non-empty list of `SoftMetric`
records, `average` returns the report whose `corpus_cer` is the sum of
the `edit_distance` values divided by the sum of the `ref_len` values,
and whose every other entry is the arithmetic mean of that key. -/
theorem C5_average_spec (l : List SoftMetric) (h1 : l ≠ [])
    (h2 : ∀ m ∈ l, isSoftMetricRecord m) :
    average l = Except.ok
      { corpus_cer := (l.map fun m => m.edit_distance).sum /
          (((l.map fun m => m.ref_len).sum : ℕ) : ℚ)
        edit_distance := (l.map fun m => m.edit_distance).sum / (l.length : ℚ)
        ref_len := (l.map fun m => (m.ref_len : ℚ)).sum / (l.length : ℚ)
        cer := (l.map fun m => m.cer).sum / (l.length : ℚ)
        accuracy := (l.map fun m => m.accuracy).sum / (l.length : ℚ) } := by
  have hsum : ¬ (l.map fun m => m.ref_len).sum = 0 := by
    rcases l with _ | ⟨m, rest⟩
    · exact absurd rfl h1
    · have hm := isSoftMetricRecord_ref_len_pos (h2 m (by simp))
      simp only [List.map_cons, List.sum_cons]
      omega
  rcases l with _ | ⟨m, rest⟩
  · exact absurd rfl h1
  · simp only [average, hsum, if_neg, if_false]

/-- Witness for C5 at the concrete two-record list of the claim. -/
theorem C5_average_witness :
    (([⟨2, 5, 2/5, 0⟩, ⟨0, 3, 0, 1⟩] : List SoftMetric) ≠ [] ∧
      (∀ m ∈ ([⟨2, 5, 2/5, 0⟩, ⟨0, 3, 0, 1⟩] : List SoftMetric), isSoftMetricRecord m)) ∧
    average [⟨2, 5, 2/5, 0⟩, ⟨0, 3, 0, 1⟩] = Except.ok ⟨1/4, 1, 4, 1/5, 1/2⟩ := by
  have hr : ∀ m ∈ ([⟨2, 5, 2/5, 0⟩, ⟨0, 3, 0, 1⟩] : List SoftMetric),
      isSoftMetricRecord m := by
    intro m hm
    rcases (by simpa using hm : m = ⟨2, 5, 2/5, 0⟩ ∨ m = ⟨0, 3, 0, 1⟩) with h | h
    · exact ⟨"abc", "abcde", by rw [h]; decide⟩
    · exact ⟨"abc", "abc", by rw [h]; decide⟩
  exact ⟨⟨by decide, hr⟩,
    (C5_average_spec [⟨2, 5, 2/5, 0⟩, ⟨0, 3, 0, 1⟩] (by decide) hr).trans (by decide)⟩

/-- The eligible entries of a raising-free stream of batches, in order:
the `(log_prob, test_meta)` pairs whose metadata satisfies the
predicate.  (This names the phrase "examples whose metadata satisfies
the predicate" used by the claims about `evaluate_ppl`.) -/
def eligible_entries (p : TestMeta → Bool) (batches : List PplBatch) :
    List (ℚ × TestMeta) :=
  ((batches.map PplBatch.entries).flatten).filter fun x => p x.2

lemma ppl_fold (p : TestMeta → Bool) (l : List (ℚ × TestMeta)) (cum : ℚ) (n : ℕ) :
    l.foldl (fun (q : ℚ × ℕ) (x : ℚ × TestMeta) =>
        if p x.2 then (q.1 + x.1, q.2 + 1) else q) (cum, n) =
      (cum + ((l.filter fun x => p x.2).map Prod.fst).sum,
        n + (l.filter fun x => p x.2).length) := by
  induction l generalizing cum n with
  | nil => simp
  | cons x xs ih =>
    by_cases h : p x.2 <;>
      simp [h, ih, List.filter_cons, Prod.ext_iff] <;>
      constructor <;> first | ring | omega

lemma ppl_loop_ok (p : TestMeta → Bool) (batches : List PplBatch) :
    ∀ (cum : ℚ) (n : ℕ),
      ppl_loop p (batches.map Except.ok) cum n =
        Except.ok (cum + ((eligible_entries p batches).map Prod.fst).sum,
          n + (eligible_entries p batches).length) := by
  induction batches with
  | nil => intro cum n; simp [ppl_loop, eligible_entries]
  | cons b bs ih =>
    intro cum n
    simp only [List.map_cons, ppl_loop, ppl_fold, ih, eligible_entries,
      List.flatten_cons, List.filter_append, List.map_append, List.sum_append,
      List.length_append]
    rw [Except.ok.injEq, Prod.mk.injEq]
    constructor <;> first | ring | omega

/-- C7 (confirmed).  With at least one eligible example,
`evaluate_ppl` returns
`exp(-(sum of eligible log-probs) / (number of eligible examples))`;
ineligible examples contribute to neither the sum nor the count.  The
embedded `evaluate_ppl` returns the rational argument handed to
`np.exp`, so the perplexity itself is `Real.exp` of it (second
conjunct). -/
theorem C7_evaluate_ppl_spec (t : Bool) (batches : List PplBatch)
    (config : Config) (p : TestMeta → Bool)
    (h : 0 < (eligible_entries p batches).length) :
    (evaluate_ppl t (fun _ => batches.map Except.ok) config p).2 =
      Except.ok (-(((eligible_entries p batches).map Prod.fst).sum /
        ((eligible_entries p batches).length : ℚ)))
    ∧ ((evaluate_ppl t (fun _ => batches.map Except.ok) config p).2).map
        (fun q => Real.exp (q : ℝ)) =
      Except.ok (Real.exp
        ((-(((eligible_entries p batches).map Prod.fst).sum /
          ((eligible_entries p batches).length : ℚ)) : ℚ) : ℝ)) := by
  have h0 : ¬ (eligible_entries p batches).length = 0 := by omega
  have h1 : (evaluate_ppl t (fun _ => batches.map Except.ok) config p).2 =
      Except.ok (-(((eligible_entries p batches).map Prod.fst).sum /
        ((eligible_entries p batches).length : ℚ))) := by
    simp [evaluate_ppl, ppl_loop_ok, h0]
  exact ⟨h1, by rw [h1]; rfl⟩

/-- Witness for C7: one batch, one example with log-probability `1`,
predicate accepting everything. -/
theorem C7_evaluate_ppl_witness :
    0 < (eligible_entries (fun _ => true) [⟨[(1, ⟨true, true⟩)]⟩]).length ∧
    ((evaluate_ppl false (fun _ => [⟨[(1, ⟨true, true⟩)]⟩].map Except.ok)
        ⟨⟨1, none, 1, 1⟩⟩ (fun _ => true)).2 =
      Except.ok (-(((eligible_entries (fun _ => true)
          [⟨[(1, ⟨true, true⟩)]⟩]).map Prod.fst).sum /
        ((eligible_entries (fun _ => true) [⟨[(1, ⟨true, true⟩)]⟩]).length : ℚ)))
    ∧ ((evaluate_ppl false (fun _ => [⟨[(1, ⟨true, true⟩)]⟩].map Except.ok)
        ⟨⟨1, none, 1, 1⟩⟩ (fun _ => true)).2).map (fun q => Real.exp (q : ℝ)) =
      Except.ok (Real.exp
        ((-(((eligible_entries (fun _ => true)
            [⟨[(1, ⟨true, true⟩)]⟩]).map Prod.fst).sum /
          ((eligible_entries (fun _ => true) [⟨[(1, ⟨true, true⟩)]⟩]).length : ℚ)) : ℚ) : ℝ))) :=
  ⟨by decide,
   C7_evaluate_ppl_spec false [⟨[(1, ⟨true, true⟩)]⟩] ⟨⟨1, none, 1, 1⟩⟩
     (fun _ => true) (by decide)⟩

/-- C2 counterexample.  On a non-empty dataset whose every example
fails the predicate, `evaluate_ppl` raises the *generic*
`ZeroDivisionError` from `-cum_log_probs / cum_num_examples` (line 78),
not an error distinctly identifying the "no eligible examples"
condition. -/
theorem C2_counterexample :
    (evaluate_ppl false (fun _ => [Except.ok ⟨[(1, ⟨true, true⟩)]⟩])
        ⟨⟨1, none, 1, 1⟩⟩ (fun _ => false)).2 = Except.error Err.divByZero
    ∧ Err.divByZero ≠ Err.noEligibleExamples := by
  exact ⟨by decide, by decide⟩

/-- C2 (corrected).  With zero eligible examples `evaluate_ppl`
does raise — the `ZeroDivisionError` of the final division — rather
than silently returning NaN or infinity; but the error is the generic
division-by-zero, not a distinct "no eligible examples" error. -/
theorem C2_amended_zero_eligible (t : Bool) (batches : List PplBatch)
    (config : Config) (p : TestMeta → Bool)
    (h : (eligible_entries p batches).length = 0) :
    (evaluate_ppl t (fun _ => batches.map Except.ok) config p).2 =
      Except.error Err.divByZero := by
  simp [evaluate_ppl, ppl_loop_ok, h]

/-- Witness for the amended C2: one example, predicate rejecting all. -/
theorem C2_amended_witness :
    (eligible_entries (fun _ => false) [⟨[(1, ⟨true, true⟩)]⟩]).length = 0 ∧
    (evaluate_ppl true (fun _ => [⟨[(1, ⟨true, true⟩)]⟩].map Except.ok)
        ⟨⟨4, none, 1, 1⟩⟩ (fun _ => false)).2 = Except.error Err.divByZero :=
  ⟨by decide,
   C2_amended_zero_eligible true [⟨[(1, ⟨true, true⟩)]⟩] ⟨⟨4, none, 1, 1⟩⟩
     (fun _ => false) (by decide)⟩

lemma average_ok_ne_nil {l : List SoftMetric} {r : AggReport}
    (h : average l = Except.ok r) : l ≠ [] := by
  intro he
  rw [he] at h
  simp [average] at h

lemma dreduce_ok_spec {t rr : Bool} {st : DAcc}
    {res : EvalResults × Option (List (String × (RenameResult × AggReport)))}
    (h : (dreduce t rr st).2 = Except.ok res) :
    (dreduce t rr st).1 = t ∧
    st.need_rename_cases ≠ [] ∧ st.func_name_in_train_acc ≠ [] ∧
    st.func_name_not_in_train_acc ≠ [] ∧ st.func_body_in_train_acc ≠ [] ∧
    st.func_body_not_in_train_acc ≠ [] := by
  unfold dreduce at h ⊢
  split at h
  · simp at h
  · split at h
    · simp at h
    · rename_i need_rename_acc hnr
      split at h
      · simp at h
      · rename_i name_in_acc hni
        split at h
        · simp at h
        · rename_i name_not_in_acc hnn
          split at h
          · simp at h
          · rename_i body_in_acc hbi
            split at h
            · simp at h
            · rename_i body_not_in_acc hbn
              refine ⟨?_, average_ok_ne_nil hnr, average_ok_ne_nil hni,
                average_ok_ne_nil hnn, average_ok_ne_nil hbi,
                average_ok_ne_nil hbn⟩
              rfl

/-- C1 counterexample.  `decode` calls `model.eval()` (line 105) and
never restores the mode: with the flag initially `true`, even a normal
return (here on an empty dataset) finishes with the flag `false`, not
its prior value. -/
theorem C1_counterexample :
    (decode true (fun _ => []) ⟨⟨1, none, 1, 1⟩⟩ none).1 = false
    ∧ false ≠ true := by
  exact ⟨by decide, by decide⟩

/-- C1 (corrected).  Mode-flag behaviour actually implemented:
`evaluate_ppl` and `decode_and_evaluate` restore the flag on a normal
return only; every error exit of `evaluate_ppl` (a raising iterator or
model call, and also the zero-eligible division, which precedes the
restore) leaves the flag cleared; an exception during
`decode_and_evaluate`'s batch loop leaves the flag cleared; and `decode`
leaves the flag cleared on every exit, normal or not. -/
theorem C1_amended_mode_flag :
    (∀ (t : Bool) (ds : ℕ → List (Except Err PplBatch)) (cfg : Config)
        (p : TestMeta → Bool) (r : ℚ),
        (evaluate_ppl t ds cfg p).2 = Except.ok r →
        (evaluate_ppl t ds cfg p).1 = t)
    ∧ (∀ (t : Bool) (ds : ℕ → List (Except Err PplBatch)) (cfg : Config)
        (p : TestMeta → Bool) (e : Err),
        (evaluate_ppl t ds cfg p).2 = Except.error e →
        (evaluate_ppl t ds cfg p).1 = false)
    ∧ (∀ (t : Bool) (ds : ℕ → List (Except Err DecodeBatch)) (cfg : Config)
        (rr : Bool) (a : Option ℕ)
        (res : EvalResults × Option (List (String × (RenameResult × AggReport)))),
        (decode_and_evaluate t ds cfg rr a).2 = Except.ok res →
        (decode_and_evaluate t ds cfg rr a).1 = t)
    ∧ (∀ (t : Bool) (ds : ℕ → List (Except Err DecodeBatch)) (cfg : Config)
        (rr : Bool) (a : Option ℕ) (e : Err),
        dbatch_loop rr (ds (effective_eval_batch_size a cfg)) emptyDAcc =
          Except.error e →
        (decode_and_evaluate t ds cfg rr a).1 = false)
    ∧ (∀ (t : Bool) (ds : ℕ → List (Except Err DecodeBatch)) (cfg : Config)
        (a : Option ℕ), (decode t ds cfg a).1 = false) := by
  refine ⟨?_, ?_, ?_, ?_, fun _ _ _ _ => rfl⟩
  · intro t ds cfg p r h
    rcases hl : ppl_loop p (ds cfg.train.batch_size) 0 0 with e | ⟨cum, n⟩ <;>
      simp [evaluate_ppl, hl] at h ⊢
    by_cases hn : n = 0
    · simp [hn] at h
    · simp [hn]
  · intro t ds cfg p e h
    rcases hl : ppl_loop p (ds cfg.train.batch_size) 0 0 with e' | ⟨cum, n⟩ <;>
      simp [evaluate_ppl, hl] at h ⊢
    by_cases hn : n = 0
    · simp [hn]
    · simp [hn] at h
  · intro t ds cfg rr a res h
    rcases hl : dbatch_loop rr (ds (effective_eval_batch_size a cfg)) emptyDAcc
      with e | st <;> simp [decode_and_evaluate, hl] at h ⊢
    exact (dreduce_ok_spec h).1
  · intro t ds cfg rr a e h
    simp [decode_and_evaluate, h]

/-- Witness for the amended C1: a successful `evaluate_ppl` run with the
flag initially `true` finishes with the flag `true`. -/
theorem C1_amended_witness :
    (evaluate_ppl true (fun _ => [Except.ok ⟨[(1, ⟨true, true⟩)]⟩])
        ⟨⟨1, none, 1, 1⟩⟩ (fun _ => true)).2 = Except.ok (-1)
    ∧ (evaluate_ppl true (fun _ => [Except.ok ⟨[(1, ⟨true, true⟩)]⟩])
        ⟨⟨1, none, 1, 1⟩⟩ (fun _ => true)).1 = true :=
  ⟨by decide,
   C1_amended_mode_flag.1 true (fun _ => [Except.ok ⟨[(1, ⟨true, true⟩)]⟩])
     ⟨⟨1, none, 1, 1⟩⟩ (fun _ => true) (-1) (by decide)⟩

/-- The bookkeeping invariant of the stratification buckets: the two
function-name buckets partition the renamed cases, and so do the two
function-body buckets. -/
def bucketsPartition (st : DAcc) : Prop :=
  st.func_name_in_train_acc.length + st.func_name_not_in_train_acc.length =
      st.need_rename_cases.length
    ∧ st.func_body_in_train_acc.length + st.func_body_not_in_train_acc.length =
      st.need_rename_cases.length

lemma bucketsPartition_renamed (st : DAcc) (m : SoftMetric) (b1 b2 : Bool)
    (h : bucketsPartition st) :
    bucketsPartition
      { st with
        need_rename_cases := st.need_rename_cases ++ [m]
        func_name_in_train_acc :=
          if b1 then st.func_name_in_train_acc ++ [m]
          else st.func_name_in_train_acc
        func_name_not_in_train_acc :=
          if b1 then st.func_name_not_in_train_acc
          else st.func_name_not_in_train_acc ++ [m]
        func_body_in_train_acc :=
          if b2 then st.func_body_in_train_acc ++ [m]
          else st.func_body_in_train_acc
        func_body_not_in_train_acc :=
          if b2 then st.func_body_not_in_train_acc
          else st.func_body_not_in_train_acc ++ [m] } := by
  obtain ⟨h1, h2⟩ := h
  cases b1 <;> cases b2 <;>
    refine ⟨?_, ?_⟩ <;>
    simp only [bucketsPartition, Bool.false_eq_true, if_pos, if_neg,
      ite_true, ite_false, List.length_append] <;>
    omega

lemma dvar_loop_partition (meta : TestMeta) (top : List (String × String)) :
    ∀ (vars : List (String × String)) (accs : List SoftMetric) (st : DAcc)
      (accs' : List SoftMetric) (st' : DAcc),
      bucketsPartition st →
      dvar_loop meta top vars accs st = Except.ok (accs', st') →
      bucketsPartition st' := by
  intro vars
  induction vars with
  | nil =>
    intro accs st accs' st' h hrun
    simp only [dvar_loop, Except.ok.injEq, Prod.mk.injEq] at hrun
    rw [← hrun.2]
    exact h
  | cons v rest ih =>
    rintro accs st accs' st' h hrun
    obtain ⟨old_name, gold_new_name⟩ := v
    simp only [dvar_loop] at hrun
    rcases hfind : assocFind old_name top with _ | pred_new_name
    · simp only [hfind] at hrun
      exact absurd hrun (by simp)
    · simp only [hfind] at hrun
      rcases hms : get_soft_metrics pred_new_name gold_new_name with e | m
      · simp only [hms] at hrun
        exact absurd hrun (by simp)
      · simp only [hms] at hrun
        refine ih _ _ _ _ ?_ hrun
        by_cases hg : gold_new_name ≠ old_name
        · rw [if_pos hg]
          exact bucketsPartition_renamed st m
            meta.function_name_in_train meta.function_body_in_train h
        · rw [if_neg hg]
          exact h

lemma dexamples_loop_partition (rr : Bool) :
    ∀ (exs : List (Example × RenameResult)) (st st' : DAcc),
      bucketsPartition st →
      dexamples_loop rr exs st = Except.ok st' →
      bucketsPartition st' := by
  intro exs
  induction exs with
  | nil =>
    intro st st' h hrun
    simp only [dexamples_loop, Except.ok.injEq] at hrun
    rw [← hrun]
    exact h
  | cons er rest ih =>
    rintro st st' h hrun
    obtain ⟨ex, rename_result⟩ := er
    simp only [dexamples_loop] at hrun
    rcases rename_result with _ | ⟨top, ranked⟩
    · simp at hrun
    · rcases hvl : dvar_loop ex.test_meta top ex.variable_name_map [] st
        with e | ⟨accs, stv⟩
      · simp only [hvl] at hrun
        exact absurd hrun (by simp)
      · simp only [hvl] at hrun
        have hstv : bucketsPartition stv :=
          dvar_loop_partition _ _ _ _ _ _ _ h hvl
        have hstv' : bucketsPartition
            { stv with
              variable_acc_list := stv.variable_acc_list ++ accs
              example_acc_list := stv.example_acc_list ++ [accs] } := hstv
        rcases rr with _ | _
        · rw [if_neg (by simp)] at hrun
          exact ih _ _ hstv' hrun
        · rw [if_pos rfl] at hrun
          rcases havg : average accs with e | avg
          · simp only [havg] at hrun
            exact absurd hrun (by simp)
          · simp only [havg] at hrun
            refine ih _ _ ?_ hrun
            exact hstv'

lemma dbatch_loop_partition (rr : Bool) :
    ∀ (stream : List (Except Err DecodeBatch)) (st st' : DAcc),
      bucketsPartition st →
      dbatch_loop rr stream st = Except.ok st' →
      bucketsPartition st' := by
  intro stream
  induction stream with
  | nil =>
    intro st st' h hrun
    simp only [dbatch_loop, Except.ok.injEq] at hrun
    rw [← hrun]
    exact h
  | cons b rest ih =>
    rintro st st' h hrun
    rcases b with e | b
    · simp [dbatch_loop] at hrun
    · simp only [dbatch_loop] at hrun
      rcases hex : dexamples_loop rr b.examples st with e | st₁ <;>
        rw [hex] at hrun
      · simp at hrun
      · exact ih _ _ (dexamples_loop_partition _ _ _ _ h hex) hrun

/-- C6 (confirmed).  Throughout `decode_and_evaluate`'s accumulation
— after each scored variable, each example, each batch, and hence also
at the end of the loop — the function-name buckets partition the renamed
cases and so do the function-body buckets: any accumulation step started
from a state satisfying the count identity
`len(func_name_in_train_acc) + len(func_name_not_in_train_acc) =
len(need_rename_cases)` (and the body analogue) finishes in a state
satisfying it, and the initial state satisfies it. -/
theorem C6_partition_invariant :
    bucketsPartition emptyDAcc
    ∧ (∀ (meta : TestMeta) (top vars : List (String × String))
        (accs : List SoftMetric) (st : DAcc) (accs' : List SoftMetric) (st' : DAcc),
        bucketsPartition st →
        dvar_loop meta top vars accs st = Except.ok (accs', st') →
        bucketsPartition st')
    ∧ (∀ (rr : Bool) (exs : List (Example × RenameResult)) (st st' : DAcc),
        bucketsPartition st →
        dexamples_loop rr exs st = Except.ok st' →
        bucketsPartition st')
    ∧ (∀ (rr : Bool) (stream : List (Except Err DecodeBatch)) (st st' : DAcc),
        bucketsPartition st →
        dbatch_loop rr stream st = Except.ok st' →
        bucketsPartition st') :=
  ⟨⟨rfl, rfl⟩, fun meta top vars accs st accs' st' =>
      dvar_loop_partition meta top vars accs st accs' st',
    fun rr exs st st' => dexamples_loop_partition rr exs st st',
    fun rr stream st st' => dbatch_loop_partition rr stream st st'⟩

/-- Witness for C6: one batch with a single renamed variable whose
function name was in the training data and whose body was not. -/
theorem C6_partition_witness :
    bucketsPartition emptyDAcc
    ∧ dbatch_loop false
        [Except.ok ⟨[(⟨[("a", "b")], "f", 0, "g", ⟨true, false⟩⟩, [[("a", "b")]])]⟩]
        emptyDAcc =
      Except.ok ⟨[[⟨0, 1, 0, 1⟩]], [⟨0, 1, 0, 1⟩], [⟨0, 1, 0, 1⟩],
        [⟨0, 1, 0, 1⟩], [], [], [⟨0, 1, 0, 1⟩], []⟩
    ∧ bucketsPartition ⟨[[⟨0, 1, 0, 1⟩]], [⟨0, 1, 0, 1⟩], [⟨0, 1, 0, 1⟩],
        [⟨0, 1, 0, 1⟩], [], [], [⟨0, 1, 0, 1⟩], []⟩ :=
  ⟨C6_partition_invariant.1, by decide,
   C6_partition_invariant.2.2.2 false
     [Except.ok ⟨[(⟨[("a", "b")], "f", 0, "g", ⟨true, false⟩⟩, [[("a", "b")]])]⟩]
     emptyDAcc
     ⟨[[⟨0, 1, 0, 1⟩]], [⟨0, 1, 0, 1⟩], [⟨0, 1, 0, 1⟩],
       [⟨0, 1, 0, 1⟩], [], [], [⟨0, 1, 0, 1⟩], []⟩
     C6_partition_invariant.1 (by decide)⟩

/-- C10 (confirmed).  The final reduction of `decode_and_evaluate`
(lines 222-226) applies `average` to every stratification bucket, and
`average` of an empty list raises; hence the call succeeds only when
every bucket is non-empty, and with any bucket empty — no renamed
variable at all, or all renamed variables on one side of the
name-in-train (or body-in-train) split — it raises instead of returning
a report.  The last conjunct exhibits `dreduce` as exactly the final
reduction the operation runs after its batch loop. -/
theorem C10_nonempty_buckets :
    (∀ (t rr : Bool) (st : DAcc)
        (res : EvalResults × Option (List (String × (RenameResult × AggReport)))),
        (dreduce t rr st).2 = Except.ok res →
        st.need_rename_cases ≠ [] ∧ st.func_name_in_train_acc ≠ [] ∧
        st.func_name_not_in_train_acc ≠ [] ∧ st.func_body_in_train_acc ≠ [] ∧
        st.func_body_not_in_train_acc ≠ [])
    ∧ (∀ (t rr : Bool) (st : DAcc),
        (st.need_rename_cases = [] ∨ st.func_name_in_train_acc = [] ∨
          st.func_name_not_in_train_acc = [] ∨ st.func_body_in_train_acc = [] ∨
          st.func_body_not_in_train_acc = []) →
        ∃ e, (dreduce t rr st).2 = Except.error e)
    ∧ (∀ (t : Bool) (ds : ℕ → List (Except Err DecodeBatch)) (cfg : Config)
        (rr : Bool) (a : Option ℕ),
        decode_and_evaluate t ds cfg rr a =
          match dbatch_loop rr (ds (effective_eval_batch_size a cfg)) emptyDAcc with
          | Except.error e => (false, Except.error e)
          | Except.ok st => dreduce t rr st) := by
  refine ⟨fun t rr st res h => (dreduce_ok_spec h).2, ?_, fun _ _ _ _ _ => rfl⟩
  intro t rr st h
  rcases hres : (dreduce t rr st).2 with e | res
  · exact ⟨e, rfl⟩
  · exfalso
    have hb := (dreduce_ok_spec hres).2
    rcases h with h | h | h | h | h <;> simp [h] at hb

/-- Witness for C10: with the empty accumulator every bucket is empty
and the final reduction indeed raises. -/
theorem C10_nonempty_buckets_witness :
    (emptyDAcc.need_rename_cases = [] ∨ emptyDAcc.func_name_in_train_acc = [] ∨
      emptyDAcc.func_name_not_in_train_acc = [] ∨
      emptyDAcc.func_body_in_train_acc = [] ∨
      emptyDAcc.func_body_not_in_train_acc = [])
    ∧ ∃ e, (dreduce false false emptyDAcc).2 = Except.error e :=
  ⟨Or.inl rfl, C10_nonempty_buckets.2.1 false false emptyDAcc (Or.inl rfl)⟩

end Evaluation
